import Mathlib

/-!
Shallow embedding of `swh/objstorage/replayer/replay.py` (the content
replayer of swh-objstorage-replayer) and proofs about it.

Conventions of the embedding:
* Python `bytes` values are `List Nat` (one `Nat` per byte); Python's
  lexicographic comparison of `bytes` is `bytesLt` below.
* Fallible Python code is modelled with `Except`/`Option`; a raised
  exception that is never caught appears as `Except.error`/`none`.
* The object storages are abstracted by their observable behaviour: for
  each storage operation a function from the (1-based) attempt number to
  the outcome of that attempt (`RawResult`).
* Side effects relevant to the claims (statsd counters, the Error
  Reporter, attempt counts) are returned explicitly in trace structures.
-/

namespace Replay

/-- Lexicographic strict order on byte strings: the embedding of Python's
`<` on `bytes` values. -/
def bytesLt : List Nat → List Nat → Bool
  | [], [] => false
  | [], _ :: _ => true
  | _ :: _, [] => false
  | a :: as, b :: bs =>
    if a < b then true
    else if b < a then false
    else bytesLt as bs

/-- Embedding of `get_hash(position)`, the inner helper of `is_hash_in_bytearray`:
`array[position * hash_size : (position + 1) * hash_size]`. -/
def get_hash (array : List Nat) (hash_size position : Nat) : List Nat :=
  (array.drop (position * hash_size)).take hash_size

/-- The `while left < right - 1` dichotomy loop of `is_hash_in_bytearray`.
The loop is embedded with an explicit iteration bound (`fuel`): every
iteration strictly shrinks the interval `[left, right)`, so any
`fuel ≥ right - left` makes the embedding exhaust the loop exactly as the
source does; when the fuel is 0 the interval has at most one candidate
and the code below coincides with the loop exit (`return
get_hash(left) == hash_`). `middle = int((right + left) / 2)` is the
floor of the midpoint. -/
def dichoLoop (array : List Nat) (hash_size : Nat) (hq : List Nat) :
    Nat → Nat → Nat → Bool
  | 0, left, _ => decide (get_hash array hash_size left = hq)
  | fuel + 1, left, right =>
    if left < right - 1 then
      if get_hash array hash_size ((right + left) / 2) = hq then true
      else if bytesLt (get_hash array hash_size ((right + left) / 2)) hq then
        dichoLoop array hash_size hq fuel ((right + left) / 2) right
      else
        dichoLoop array hash_size hq fuel left ((right + left) / 2)
    else decide (get_hash array hash_size left = hq)

/-- Embedding of `is_hash_in_bytearray(hash_, array, nb_hashes, hash_size)`: raises
`ValueError` when the queried hash does not have `hash_size` bytes,
otherwise runs the dichotomy over the `nb_hashes` records of `array`.
The initial interval is `[0, nb_hashes)`, so `nb_hashes` iterations of
fuel are always enough. -/
def is_hash_in_bytearray (hq array : List Nat) (nb_hashes : Nat)
    (hash_size : Nat := 20) : Except String Bool :=
  if hq.length ≠ hash_size then
    Except.error "hash_ does not match the provided hash_size."
  else
    Except.ok (dichoLoop array hash_size hq nb_hashes 0 nb_hashes)

theorem bytesLt_conn : ∀ a b : List Nat,
    bytesLt a b = false → bytesLt b a = false → a = b
  | [], [], _, _ => rfl
  | [], _ :: _, h1, _ => by simp [bytesLt] at h1
  | _ :: _, [], _, h2 => by simp [bytesLt] at h2
  | a :: as, b :: bs, h1, h2 => by
    simp only [bytesLt] at h1 h2
    by_cases hab : a < b
    · simp [hab] at h1
    · by_cases hba : b < a
      · simp [hab, hba] at h2
      · have hEq : a = b := by omega
        subst hEq
        simp only [if_neg (lt_irrefl a)] at h1 h2
        rw [bytesLt_conn as bs h1 h2]

theorem lt_middle (left right : Nat) (h : left < right - 1) :
    left < (right + left) / 2 := by omega

theorem middle_lt (left right : Nat) (h : left < right - 1) :
    (right + left) / 2 < right := by omega

/-- Loop invariant of the dichotomy: over a sorted region `[0, count)` the
loop on a sub-interval `[left, right)` answers membership in that
sub-interval, as long as the fuel covers the interval width. -/
theorem dichoLoop_iff_aux (array : List Nat) (w : Nat) (hq : List Nat)
    (count : Nat)
    (hs : ∀ i j, i ≤ j → j < count →
      bytesLt (get_hash array w j) (get_hash array w i) = false) :
    ∀ fuel left right, right - left ≤ fuel → left < right → right ≤ count →
      (dichoLoop array w hq fuel left right = true ↔
        ∃ i, left ≤ i ∧ i < right ∧ get_hash array w i = hq) := by
  intro fuel
  induction fuel with
  | zero => intro left right h1 h2 _; omega
  | succ n ih =>
    intro left right h1 h2 h3
    simp only [dichoLoop]
    by_cases hg : left < right - 1
    · have hlm : left < (right + left) / 2 := lt_middle left right hg
      have hmr : (right + left) / 2 < right := middle_lt left right hg
      rw [if_pos hg]
      by_cases hpiv : get_hash array w ((right + left) / 2) = hq
      · rw [if_pos hpiv]
        exact iff_of_true rfl ⟨(right + left) / 2, le_of_lt hlm, hmr, hpiv⟩
      · rw [if_neg hpiv]
        by_cases hlt : bytesLt (get_hash array w ((right + left) / 2)) hq = true
        · rw [if_pos hlt]
          rw [ih ((right + left) / 2) right (by omega) hmr h3]
          constructor
          · rintro ⟨i, hi1, hi2, hi3⟩
            exact ⟨i, by omega, hi2, hi3⟩
          · rintro ⟨i, hi1, hi2, hi3⟩
            refine ⟨i, ?_, hi2, hi3⟩
            by_contra hcon
            push_neg at hcon
            have hsij := hs i ((right + left) / 2) (by omega) (by omega)
            rw [hi3] at hsij
            rw [hlt] at hsij
            cases hsij
        · rw [if_neg hlt]
          have hlt' : bytesLt (get_hash array w ((right + left) / 2)) hq
              = false := by
            cases hb : bytesLt (get_hash array w ((right + left) / 2)) hq
            · rfl
            · exact absurd hb hlt
          rw [ih left ((right + left) / 2) (by omega) hlm (by omega)]
          constructor
          · rintro ⟨i, hi1, hi2, hi3⟩
            exact ⟨i, hi1, by omega, hi3⟩
          · rintro ⟨i, hi1, hi2, hi3⟩
            refine ⟨i, hi1, ?_, hi3⟩
            by_contra hcon
            push_neg at hcon
            have hsij := hs ((right + left) / 2) i hcon (by omega)
            rw [hi3] at hsij
            exact hpiv (bytesLt_conn _ _ hlt' hsij)
    · rw [if_neg hg]
      have hr : right = left + 1 := by omega
      subst hr
      rw [decide_eq_true_eq]
      constructor
      · intro he
        exact ⟨left, le_refl _, by omega, he⟩
      · rintro ⟨i, hi1, hi2, hi3⟩
        have hEq : i = left := by omega
        subst hEq
        exact hi3

/-- C2: for a backing array holding `count` hashes of width `w` in
ascending byte-lexicographic order, and a queried hash of that width,
`is_hash_in_bytearray` returns (with no error) exactly whether the
queried hash equals one of the `count` stored hashes. -/
theorem is_hash_in_bytearray_correct (hq array : List Nat) (count w : Nat)
    (hw : 0 < w) (hlen : hq.length = w) (harr : array.length = count * w)
    (hsorted : ∀ i < count, ∀ j < count, i ≤ j →
      bytesLt (get_hash array w j) (get_hash array w i) = false) :
    (∃ b, is_hash_in_bytearray hq array count w = Except.ok b) ∧
      (is_hash_in_bytearray hq array count w = Except.ok true ↔
        ∃ i, i < count ∧ get_hash array w i = hq) := by
  unfold is_hash_in_bytearray
  rw [if_neg (not_not_intro hlen)]
  refine ⟨⟨dichoLoop array w hq count 0 count, rfl⟩, ?_⟩
  rw [Except.ok.injEq]
  rcases Nat.eq_zero_or_pos count with hc | hc
  · subst hc
    have harr0 : array = [] := by
      cases array with
      | nil => rfl
      | cons x xs => simp at harr
    subst harr0
    have hne : hq ≠ [] := by
      intro h0
      rw [h0] at hlen
      simp at hlen
      omega
    simp [dichoLoop, get_hash]
    intro h
    exact hne h
  · have hiff := dichoLoop_iff_aux array w hq count
      (fun i j hij hj => hsorted i (lt_of_le_of_lt hij hj) j hj hij)
      count 0 count (by omega) hc (le_refl count)
    rw [hiff]
    constructor
    · rintro ⟨i, _, hi, he⟩
      exact ⟨i, hi, he⟩
    · rintro ⟨i, hi, he⟩
      exact ⟨i, Nat.zero_le i, hi, he⟩

theorem is_hash_in_bytearray_correct_witness :
    (∃ b, is_hash_in_bytearray [1] [0, 1, 3] 3 1 = Except.ok b) ∧
      (is_hash_in_bytearray [1] [0, 1, 3] 3 1 = Except.ok true ↔
        ∃ i, i < 3 ∧ get_hash [0, 1, 3] 1 i = [1]) :=
  is_hash_in_bytearray_correct [1] [0, 1, 3] 3 1 (by decide) (by decide)
    (by decide) (by decide)

/-- C8: a queried hash whose byte length differs from `hash_size` makes
`is_hash_in_bytearray` raise a `ValueError`, whatever the backing array
and the announced hash count are. -/
theorem is_hash_in_bytearray_wrong_width (hq array : List Nat)
    (count w : Nat) (hlen : hq.length ≠ w) :
    is_hash_in_bytearray hq array count w =
      Except.error "hash_ does not match the provided hash_size." := by
  unfold is_hash_in_bytearray
  rw [if_pos hlen]

theorem is_hash_in_bytearray_wrong_width_witness :
    is_hash_in_bytearray [1, 2] [0, 1, 3] 3 1 =
      Except.error "hash_ does not match the provided hash_size." :=
  is_hash_in_bytearray_wrong_width [1, 2] [0, 1, 3] 3 1 (by decide)

/-- C10 counterexample: with `nb_hashes = 0` the function still probes the
backing array (the final `get_hash(left) == hash_` comparison), so a
non-empty backing array whose first record equals the queried hash makes
it return `True`, not `False`. -/
theorem is_hash_in_bytearray_empty_cex :
    is_hash_in_bytearray [0] [0] 0 1 = Except.ok true := rfl

/-- C10 amended: with `nb_hashes = 0` and a width-matching query,
`is_hash_in_bytearray` raises no error and returns whether the first
`hash_size` bytes of the backing array equal the queried hash; in
particular it returns `False` whenever the backing array is empty (the
normal representation of an empty exclusion set). -/
theorem is_hash_in_bytearray_empty_set (hq array : List Nat) (w : Nat)
    (hw : 0 < w) (hlen : hq.length = w) :
    is_hash_in_bytearray hq array 0 w =
        Except.ok (decide (array.take w = hq)) ∧
      is_hash_in_bytearray hq [] 0 w = Except.ok false := by
  have hne : hq ≠ [] := by
    intro h0
    rw [h0] at hlen
    simp at hlen
    omega
  constructor
  · unfold is_hash_in_bytearray
    rw [if_neg (not_not_intro hlen)]
    simp [dichoLoop, get_hash]
  · unfold is_hash_in_bytearray
    rw [if_neg (not_not_intro hlen)]
    simp [dichoLoop, get_hash]
    intro h
    exact hne h

theorem is_hash_in_bytearray_empty_set_witness :
    is_hash_in_bytearray [5] [9, 9] 0 1 =
        Except.ok (decide (List.take 1 [9, 9] = [5])) ∧
      is_hash_in_bytearray [5] [] 0 1 = Except.ok false :=
  is_hash_in_bytearray_empty_set [5] [9, 9] 1 (by decide) (by decide)

/-! ## Transfer Operations: the tenacity retry wrapper

`content_replay_retry = retry(retry=retry_if_exception_type(ReplayError)
| retry_log_if_success(), stop=stop_after_attempt(CONTENT_REPLAY_RETRIES),
..., retry_error_callback=log_replay_error)`.

Per tenacity's semantics, after each attempt the retry predicate is
evaluated on the outcome: `retry_if_exception_type(ReplayError)` is true
exactly when the attempt raised a `ReplayError` (short-circuiting the
`|`); otherwise `retry_log_if_success` runs, increments
`CONTENT_RETRY_METRIC` tagged `(operation, attempt_number)` when the
outcome is a success, and returns `False`.  A non-retryable exception
(`ObjNotFoundError` re-raised by `get_object`) is then re-raised; on a
retryable failure `stop_after_attempt` allows up to
`CONTENT_REPLAY_RETRIES` attempts in total, after which
`log_replay_error` runs (writing one Error Reporter record for the
object when a reporter is configured) and its return value `None` is
returned to the caller. -/

/-- Outcome of one raw storage call: a value, the distinguished
`ObjNotFoundError`, or any other exception. -/
inductive RawResult (α : Type) where
  | ok : α → RawResult α
  | notFound : RawResult α
  | err : RawResult α
deriving DecidableEq

/-- How one attempt of a retry-wrapped function looks to tenacity:
a success, a re-raised `ObjNotFoundError`, or a wrapped `ReplayError`. -/
inductive Attempt (α : Type) where
  | success : α → Attempt α
  | objNotFound : Attempt α
  | replayError : Attempt α
deriving DecidableEq

/-- Exception classification of `get_object`: `ObjNotFoundError` is
re-raised as itself, any other exception is wrapped in `ReplayError`. -/
def classifyGet {α : Type} : RawResult α → Attempt α
  | .ok v => .success v
  | .notFound => .objNotFound
  | .err => .replayError

/-- Exception classification of `put_object` and `obj_in_objstorage`:
every exception (`ObjNotFoundError` included) is wrapped in
`ReplayError`. -/
def classifyWrapAll {α : Type} : RawResult α → Attempt α
  | .ok v => .success v
  | .notFound => .replayError
  | .err => .replayError

/-- What a retry-wrapped call yields to its caller: the returned value,
the `None` returned by the `log_replay_error` callback after retry
exhaustion, or a re-raised `ObjNotFoundError`. -/
inductive TenacityResult (α : Type) where
  | ok : α → TenacityResult α
  | exhausted : TenacityResult α
  | raisedNotFound : TenacityResult α
deriving DecidableEq

/-- Observable side effects of one retry-wrapped call. -/
structure RetryTrace where
  /-- the number of storage attempts performed (= final attempt number) -/
  attempts : Nat
  /-- the `CONTENT_RETRY_METRIC` increments, tagged (operation, attempt) -/
  retryMetric : List (String × Nat)
  /-- Error Reporter records written by `log_replay_error` -/
  reported : List (List Nat)
deriving DecidableEq

/-- The tenacity driver loop: `attempt` is the 1-based attempt number,
`rem` the number of retries `stop_after_attempt` still allows after the
current attempt. -/
def retryLoop {α : Type} (f : Nat → Attempt α) (op : String)
    (objId : List Nat) : Nat → Nat → TenacityResult α × RetryTrace
  | attempt, 0 =>
    match f attempt with
    | .success v => (.ok v, ⟨attempt, [(op, attempt)], []⟩)
    | .objNotFound => (.raisedNotFound, ⟨attempt, [], []⟩)
    | .replayError => (.exhausted, ⟨attempt, [], [objId]⟩)
  | attempt, rem + 1 =>
    match f attempt with
    | .success v => (.ok v, ⟨attempt, [(op, attempt)], []⟩)
    | .objNotFound => (.raisedNotFound, ⟨attempt, [], []⟩)
    | .replayError => retryLoop f op objId (attempt + 1) rem

def CONTENT_REPLAY_RETRIES : Nat := 3

/-- The `@content_replay_retry` decorator applied to a function whose
attempts behave as `f`. -/
def content_replay_retry {α : Type} (f : Nat → Attempt α) (op : String)
    (objId : List Nat) : TenacityResult α × RetryTrace :=
  retryLoop f op objId 1 (CONTENT_REPLAY_RETRIES - 1)

/-- Embedding of `get_object(objstorage, obj_id)` where the source storage's `get`
answers attempt `k` with `srcGet k`. -/
def get_object (srcGet : Nat → RawResult (List Nat)) (obj_id : List Nat) :
    TenacityResult (List Nat) × RetryTrace :=
  content_replay_retry (fun k => classifyGet (srcGet k)) "get_object" obj_id

/-- Embedding of `put_object(objstorage, obj_id, obj)` where the destination storage's
`add` answers attempt `k` with `dstAdd k`. -/
def put_object (dstAdd : Nat → RawResult Unit) (obj_id : List Nat) :
    TenacityResult Unit × RetryTrace :=
  content_replay_retry (fun k => classifyWrapAll (dstAdd k)) "put_object"
    obj_id

/-- Embedding of `obj_in_objstorage(obj_id, dst)` where the destination storage's
`__contains__` answers attempt `k` with `dstContains k`. -/
def obj_in_objstorage (dstContains : Nat → RawResult Bool)
    (obj_id : List Nat) : TenacityResult Bool × RetryTrace :=
  content_replay_retry (fun k => classifyWrapAll (dstContains k))
    "obj_in_objstorage" obj_id

/-! ## copy_object and the Decision Pipeline `_copy_object` -/

/-- What `copy_object` does as seen by `_copy_object`: either it raises
`ObjNotFoundError` (from `get_object`), or it returns a Python value —
an `int` (`some n`) or `None` (`none`; no code path produces it, which
is the subject of C9, but `_copy_object` tests for it). -/
inductive CopyResult where
  | raisedNotFound : CopyResult
  | returned : Option Nat → CopyResult
deriving DecidableEq

/-- Observable side effects of one `copy_object` call. -/
structure CopyTrace where
  srcAttempts : Nat
  dstAddAttempts : Nat
  retryMetric : List (String × Nat)
  reported : List (List Nat)
  /-- the `CONTENT_BYTES_METRIC` increments -/
  bytesMetric : List Nat
deriving DecidableEq

/-- Embedding of `copy_object(obj_id, src, dst)`: fetch with `get_object`; when it
returns an object (`is not None`), store it with `put_object` (whose
result is ignored), count its bytes and return its length; when it
returns `None` (retry exhaustion), return `0`. -/
def copy_object (srcGet : Nat → RawResult (List Nat))
    (dstAdd : Nat → RawResult Unit) (obj_id : List Nat) :
    CopyResult × CopyTrace :=
  match get_object srcGet obj_id with
  | (.ok obj, tg) =>
    match put_object dstAdd obj_id with
    | (_, tp) =>
      (.returned (some obj.length),
        ⟨tg.attempts, tp.attempts, tg.retryMetric ++ tp.retryMetric,
          tg.reported ++ tp.reported, [obj.length]⟩)
  | (.exhausted, tg) =>
    (.returned (some 0), ⟨tg.attempts, 0, tg.retryMetric, tg.reported, []⟩)
  | (.raisedNotFound, tg) =>
    (.raisedNotFound, ⟨tg.attempts, 0, tg.retryMetric, tg.reported, []⟩)

/-- One Kafka object record, as used by `_copy_object`:
`obj[ID_HASH_ALGO]` (= `obj["sha1"]`) and `obj["status"]`. -/
structure Record where
  sha1 : List Nat
  status : String
deriving DecidableEq

/-- Embedding of the test `exclude_fn and exclude_fn(obj)`: false when no exclusion predicate
is supplied, otherwise the predicate's verdict. -/
def exclCheck (exclude_fn : Option (Record → Bool)) (obj : Record) : Bool :=
  match exclude_fn with
  | none => false
  | some f => f obj

/-- Observable effects of one `_copy_object` run: the decision tag of the
single `CONTENT_OPERATIONS_METRIC` increment, the increments to the
batch counters `nb_skipped`/`nb_failures`, the values appended to `vol`,
the storage attempts performed, and the retry-metric/Error-Reporter
records. -/
structure PipeResult where
  decision : String
  nbSkipped : Nat
  nbFailures : Nat
  vol : List Nat
  srcAttempts : Nat
  dstAddAttempts : Nat
  dstContainsAttempts : Nat
  retryMetric : List (String × Nat)
  reported : List (List Nat)
deriving DecidableEq

/-- The `else` branch of `_copy_object`: `try: copied = copy_object(...)
except ObjNotFoundError: ...` with the effects of an already-performed
presence check (`containsAttempts`, `rm`, `rep`) prepended. -/
def tryCopy (srcGet : Nat → RawResult (List Nat))
    (dstAdd : Nat → RawResult Unit) (obj_id : List Nat)
    (containsAttempts : Nat) (rm : List (String × Nat))
    (rep : List (List Nat)) : PipeResult :=
  match copy_object srcGet dstAdd obj_id with
  | (.raisedNotFound, tr) =>
    { decision := "not_in_src", nbSkipped := 1, nbFailures := 0, vol := [],
        srcAttempts := tr.srcAttempts, dstAddAttempts := tr.dstAddAttempts,
        dstContainsAttempts := containsAttempts,
        retryMetric := rm ++ tr.retryMetric, reported := rep ++ tr.reported }
  | (.returned none, tr) =>
    { decision := "failed", nbSkipped := 0, nbFailures := 1, vol := [],
        srcAttempts := tr.srcAttempts, dstAddAttempts := tr.dstAddAttempts,
        dstContainsAttempts := containsAttempts,
        retryMetric := rm ++ tr.retryMetric, reported := rep ++ tr.reported }
  | (.returned (some n), tr) =>
    { decision := "copied", nbSkipped := 0, nbFailures := 0, vol := [n],
        srcAttempts := tr.srcAttempts, dstAddAttempts := tr.dstAddAttempts,
        dstContainsAttempts := containsAttempts,
        retryMetric := rm ++ tr.retryMetric, reported := rep ++ tr.reported }

/-- The Decision Pipeline `_copy_object(obj)`. `none` models an exception
escaping `_copy_object` (aborting the batch); the only conceivable one is
an `ObjNotFoundError` out of `obj_in_objstorage`, which
`classifyWrapAll` makes impossible (`obj_in_objstorage_no_raise`
below). -/
def _copy_object (srcGet : Nat → RawResult (List Nat))
    (dstAdd : Nat → RawResult Unit) (dstContains : Nat → RawResult Bool)
    (exclude_fn : Option (Record → Bool)) (check_dst : Bool)
    (obj : Record) : Option PipeResult :=
  if obj.status ≠ "visible" then
    some { decision := "skipped", nbSkipped := 1, nbFailures := 0,
            vol := [], srcAttempts := 0, dstAddAttempts := 0,
            dstContainsAttempts := 0, retryMetric := [], reported := [] }
  else if exclCheck exclude_fn obj then
    some { decision := "excluded", nbSkipped := 1, nbFailures := 0,
            vol := [], srcAttempts := 0, dstAddAttempts := 0,
            dstContainsAttempts := 0, retryMetric := [], reported := [] }
  else if check_dst then
    match obj_in_objstorage dstContains obj.sha1 with
    | (.ok true, tc) =>
      some { decision := "in_dst", nbSkipped := 1, nbFailures := 0,
              vol := [], srcAttempts := 0, dstAddAttempts := 0,
              dstContainsAttempts := tc.attempts,
              retryMetric := tc.retryMetric, reported := tc.reported }
    | (.ok false, tc) =>
      some (tryCopy srcGet dstAdd obj.sha1 tc.attempts tc.retryMetric
        tc.reported)
    | (.exhausted, tc) =>
      some (tryCopy srcGet dstAdd obj.sha1 tc.attempts tc.retryMetric
        tc.reported)
    | (.raisedNotFound, _) => none
  else
    some (tryCopy srcGet dstAdd obj.sha1 0 [] [])

/-! ## Batch Orchestrator `process_replay_objects_content`

The worker pool runs `_copy_object` once per content record; the
`nonlocal` counters `nb_skipped`/`nb_failures` and the `vol` list only
accumulate, and the spec requires their updates to be linearizable, so
the batch totals are modelled by a fold over the records.  A record
whose pipeline run raises makes the whole batch raise (`none`). -/

structure BatchStats where
  nbSkipped : Nat
  nbFailures : Nat
  vol : List Nat
deriving DecidableEq

def runBatch (pipe : Record → Option PipeResult) :
    List Record → Option BatchStats
  | [] => some ⟨0, 0, []⟩
  | r :: rs =>
    match pipe r, runBatch pipe rs with
    | some p, some s =>
      some ⟨p.nbSkipped + s.nbSkipped, p.nbFailures + s.nbFailures,
        p.vol ++ s.vol⟩
    | _, _ => none

/-- Embedding of `process_replay_objects_content(all_objects, src=…, dst=…,
exclude_fn=…, check_dst=…)`: only the partitions keyed `"content"` are
processed (others are logged and ignored); per-record storage behaviour
is given by the record-indexed attempt functions. -/
def process_replay_objects_content
    (srcGet : Record → Nat → RawResult (List Nat))
    (dstAdd : Record → Nat → RawResult Unit)
    (dstContains : Record → Nat → RawResult Bool)
    (exclude_fn : Option (Record → Bool)) (check_dst : Bool)
    (all_objects : List (String × List Record)) : Option BatchStats :=
  runBatch
    (fun r => _copy_object (srcGet r) (dstAdd r) (dstContains r)
      exclude_fn check_dst r)
    (all_objects.foldr
      (fun p acc => if p.fst = "content" then p.snd ++ acc else acc) [])

/-! ## Helper lemmas about the retry loop -/

theorem retryLoop_success {α : Type} (f : Nat → Attempt α) (op : String)
    (objId : List Nat) (a rem : Nat) (v : α) (h : f a = Attempt.success v) :
    retryLoop f op objId a rem =
      (TenacityResult.ok v, ⟨a, [(op, a)], []⟩) := by
  cases rem <;> simp [retryLoop, h]

theorem retryLoop_notFound {α : Type} (f : Nat → Attempt α) (op : String)
    (objId : List Nat) (a rem : Nat) (h : f a = Attempt.objNotFound) :
    retryLoop f op objId a rem =
      (TenacityResult.raisedNotFound, ⟨a, [], []⟩) := by
  cases rem <;> simp [retryLoop, h]

theorem retryLoop_err_step {α : Type} (f : Nat → Attempt α) (op : String)
    (objId : List Nat) (a rem : Nat) (h : f a = Attempt.replayError) :
    retryLoop f op objId a (rem + 1) = retryLoop f op objId (a + 1) rem := by
  simp [retryLoop, h]

theorem retryLoop_err_stop {α : Type} (f : Nat → Attempt α) (op : String)
    (objId : List Nat) (a : Nat) (h : f a = Attempt.replayError) :
    retryLoop f op objId a 0 =
      (TenacityResult.exhausted, ⟨a, [], [objId]⟩) := by
  simp [retryLoop, h]

theorem retryLoop_attempts_ge {α : Type} (f : Nat → Attempt α) (op : String)
    (objId : List Nat) : ∀ rem a, a ≤ (retryLoop f op objId a rem).2.attempts
  | 0, a => by cases h : f a <;> simp [retryLoop, h]
  | rem + 1, a => by
    cases h : f a with
    | success v => simp [retryLoop, h]
    | objNotFound => simp [retryLoop, h]
    | replayError =>
      rw [retryLoop_err_step f op objId a rem h]
      exact Nat.le_of_succ_le (retryLoop_attempts_ge f op objId rem (a + 1))

/-- Retry-metric increments dictated by a retry-wrapped call's outcome:
one increment tagged with the operation and the final attempt number
when the call returned a value, none otherwise. -/
def retryMetricOfOutcome {α : Type} (op : String)
    (r : TenacityResult α × RetryTrace) : List (String × Nat) :=
  match r.1 with
  | .ok _ => [(op, r.2.attempts)]
  | _ => []

theorem retryLoop_metric {α : Type} (f : Nat → Attempt α) (op : String)
    (objId : List Nat) : ∀ rem a,
    (retryLoop f op objId a rem).2.retryMetric =
      retryMetricOfOutcome op (retryLoop f op objId a rem)
  | 0, a => by
    cases h : f a <;> simp [retryLoop, h, retryMetricOfOutcome]
  | rem + 1, a => by
    cases h : f a with
    | success v => simp [retryLoop, h, retryMetricOfOutcome]
    | objNotFound => simp [retryLoop, h, retryMetricOfOutcome]
    | replayError =>
      rw [retryLoop_err_step f op objId a rem h]
      exact retryLoop_metric f op objId rem (a + 1)

theorem retryLoop_no_raise {α : Type} (f : Nat → Attempt α) (op : String)
    (objId : List Nat) (hf : ∀ k, f k ≠ Attempt.objNotFound) : ∀ rem a,
    (retryLoop f op objId a rem).1 ≠ TenacityResult.raisedNotFound
  | 0, a => by
    cases h : f a
    · simp [retryLoop, h]
    · exact absurd h (hf a)
    · simp [retryLoop, h]
  | rem + 1, a => by
    cases h : f a
    · simp [retryLoop, h]
    · exact absurd h (hf a)
    · rw [retryLoop_err_step f op objId a rem h]
      exact retryLoop_no_raise f op objId hf rem (a + 1)

/-- The function `obj_in_objstorage` wraps every storage exception in `ReplayError`, so
it can never re-raise `ObjNotFoundError`: the `none` (batch-crashing)
branch of the embedded `_copy_object` is unreachable. -/
theorem obj_in_objstorage_no_raise (dstContains : Nat → RawResult Bool)
    (obj_id : List Nat) :
    (obj_in_objstorage dstContains obj_id).1 ≠
      TenacityResult.raisedNotFound := by
  refine retryLoop_no_raise _ _ _ (fun k => ?_) 2 1
  cases h : dstContains k <;> simp [classifyWrapAll, h]

/-- The function `copy_object` never returns `None`: every non-raising path returns an
integer (`len(obj)` or `0`). -/
theorem copy_object_fst_ne_none (srcGet : Nat → RawResult (List Nat))
    (dstAdd : Nat → RawResult Unit) (obj_id : List Nat) :
    (copy_object srcGet dstAdd obj_id).1 ≠ CopyResult.returned none := by
  rcases hg : get_object srcGet obj_id with ⟨res, tg⟩
  cases res <;> simp [copy_object, hg]

theorem tryCopy_nbFailures (srcGet : Nat → RawResult (List Nat))
    (dstAdd : Nat → RawResult Unit) (obj_id : List Nat)
    (containsAttempts : Nat) (rm : List (String × Nat))
    (rep : List (List Nat)) :
    (tryCopy srcGet dstAdd obj_id containsAttempts rm rep).nbFailures
      = 0 := by
  rcases hc : copy_object srcGet dstAdd obj_id with ⟨cr, tr⟩
  match cr with
  | .raisedNotFound => simp [tryCopy, hc]
  | .returned none =>
    have := copy_object_fst_ne_none srcGet dstAdd obj_id
    rw [hc] at this
    simp at this
  | .returned (some n) => simp [tryCopy, hc]

theorem _copy_object_nbFailures (srcGet : Nat → RawResult (List Nat))
    (dstAdd : Nat → RawResult Unit) (dstContains : Nat → RawResult Bool)
    (exclude_fn : Option (Record → Bool)) (check_dst : Bool) (obj : Record)
    (r : PipeResult)
    (h : _copy_object srcGet dstAdd dstContains exclude_fn check_dst obj
      = some r) : r.nbFailures = 0 := by
  unfold _copy_object at h
  by_cases h1 : obj.status ≠ "visible"
  · rw [if_pos h1] at h
    injection h with h
    subst h
    rfl
  · rw [if_neg h1] at h
    by_cases h2 : exclCheck exclude_fn obj = true
    · rw [if_pos h2] at h
      injection h with h
      subst h
      rfl
    · rw [if_neg h2] at h
      cases check_dst with
      | false =>
        rw [if_neg Bool.false_ne_true] at h
        injection h with h
        subst h
        exact tryCopy_nbFailures _ _ _ _ _ _
      | true =>
        rw [if_pos rfl] at h
        rcases ho : obj_in_objstorage dstContains obj.sha1 with ⟨cres, tc⟩
        rw [ho] at h
        match cres with
        | .ok true =>
          injection h with h
          subst h
          rfl
        | .ok false =>
          injection h with h
          subst h
          exact tryCopy_nbFailures _ _ _ _ _ _
        | .exhausted =>
          injection h with h
          subst h
          exact tryCopy_nbFailures _ _ _ _ _ _
        | .raisedNotFound => cases h

theorem runBatch_nbFailures (pipe : Record → Option PipeResult)
    (hp : ∀ r p, pipe r = some p → p.nbFailures = 0) : ∀ l s,
    runBatch pipe l = some s → s.nbFailures = 0
  | [], s => by
    intro h
    injection h with h
    subst h
    rfl
  | r :: rs, s => by
    intro h
    unfold runBatch at h
    rcases h1 : pipe r with _ | p
    · rw [h1] at h
      cases h
    · rw [h1] at h
      rcases h2 : runBatch pipe rs with _ | s2

      · rw [h2] at h
        cases h
      · rw [h2] at h
        injection h with h
        subst h
        have := runBatch_nbFailures pipe hp rs s2 h2
        have := hp r p h1
        simp_all

/-! ## Claim theorems about the Decision Pipeline -/

/-- C5: a record whose status is not "visible" yields the
`skipped(invisible)` outcome — one `nb_skipped` increment, decision
metric `skipped` — and performs no storage operation at all (zero get,
add and contains attempts), whatever the exclusion predicate, the
presence-check flag and the storage behaviours are. -/
theorem invisible_record_skips (srcGet : Nat → RawResult (List Nat))
    (dstAdd : Nat → RawResult Unit) (dstContains : Nat → RawResult Bool)
    (exclude_fn : Option (Record → Bool)) (check_dst : Bool) (obj : Record)
    (hv : obj.status ≠ "visible") :
    _copy_object srcGet dstAdd dstContains exclude_fn check_dst obj =
      some { decision := "skipped", nbSkipped := 1, nbFailures := 0,
              vol := [], srcAttempts := 0, dstAddAttempts := 0,
              dstContainsAttempts := 0, retryMetric := [],
              reported := [] } := by
  unfold _copy_object
  rw [if_pos hv]

theorem invisible_record_skips_witness :
    _copy_object (fun _ => RawResult.err) (fun _ => RawResult.err)
      (fun _ => RawResult.err) (some (fun _ => true)) true
      ⟨[3], "hidden"⟩ =
      some { decision := "skipped", nbSkipped := 1, nbFailures := 0,
              vol := [], srcAttempts := 0, dstAddAttempts := 0,
              dstContainsAttempts := 0, retryMetric := [],
              reported := [] } :=
  invisible_record_skips (fun _ => RawResult.err) (fun _ => RawResult.err)
    (fun _ => RawResult.err) (some (fun _ => true)) true
    ⟨[3], "hidden"⟩ (by decide)

/-- C6: a visible record for which the supplied exclusion predicate
returns true yields the `skipped(excluded)` outcome and performs no
storage operation; in particular the destination presence check is never
reached (zero contains attempts, whatever `check_dst` is), so the
exclusion predicate is evaluated before any presence check. -/
theorem excluded_record_skips (srcGet : Nat → RawResult (List Nat))
    (dstAdd : Nat → RawResult Unit) (dstContains : Nat → RawResult Bool)
    (f : Record → Bool) (exclude_fn : Option (Record → Bool))
    (check_dst : Bool) (obj : Record)
    (hv : obj.status = "visible") (hex : exclude_fn = some f)
    (hf : f obj = true) :
    _copy_object srcGet dstAdd dstContains exclude_fn check_dst obj =
      some { decision := "excluded", nbSkipped := 1, nbFailures := 0,
              vol := [], srcAttempts := 0, dstAddAttempts := 0,
              dstContainsAttempts := 0, retryMetric := [],
              reported := [] } := by
  unfold _copy_object
  rw [if_neg (not_not_intro hv)]
  rw [if_pos (show exclCheck exclude_fn obj = true by
    rw [hex]; simpa [exclCheck] using hf)]

theorem excluded_record_skips_witness :
    _copy_object (fun _ => RawResult.err) (fun _ => RawResult.err)
      (fun _ => RawResult.err) (some (fun r => decide (r.sha1 = [3]))) true
      ⟨[3], "visible"⟩ =
      some { decision := "excluded", nbSkipped := 1, nbFailures := 0,
              vol := [], srcAttempts := 0, dstAddAttempts := 0,
              dstContainsAttempts := 0, retryMetric := [],
              reported := [] } :=
  excluded_record_skips (fun _ => RawResult.err) (fun _ => RawResult.err)
    (fun _ => RawResult.err) (fun r => decide (r.sha1 = [3]))
    (some (fun r => decide (r.sha1 = [3]))) true ⟨[3], "visible"⟩
    (by decide) rfl (by decide)

/-- C3: when the source `get` raises `ObjNotFoundError` on its first
attempt (for a visible, non-excluded record that reaches the copy step),
the get is attempted exactly once — not-found is never retried — the
outcome is the `not_in_src` skip (never `failed`), and no Error Reporter
record is written. -/
theorem not_found_get_skips (srcGet : Nat → RawResult (List Nat))
    (dstAdd : Nat → RawResult Unit) (dstContains : Nat → RawResult Bool)
    (exclude_fn : Option (Record → Bool)) (check_dst : Bool) (obj : Record)
    (hv : obj.status = "visible") (he : exclCheck exclude_fn obj = false)
    (hc : check_dst = true → dstContains 1 = RawResult.ok false)
    (hnf : srcGet 1 = RawResult.notFound) :
    ∃ r, _copy_object srcGet dstAdd dstContains exclude_fn check_dst obj
        = some r ∧
      r.srcAttempts = 1 ∧ r.decision = "not_in_src" ∧ r.nbSkipped = 1 ∧
      r.nbFailures = 0 ∧ r.dstAddAttempts = 0 ∧ r.reported = [] := by
  have hget : get_object srcGet obj.sha1 =
      (TenacityResult.raisedNotFound, ⟨1, [], []⟩) :=
    retryLoop_notFound (fun k => classifyGet (srcGet k)) "get_object"
      obj.sha1 1 2 (by simp [classifyGet, hnf])
  have hcopy : copy_object srcGet dstAdd obj.sha1 =
      (CopyResult.raisedNotFound, ⟨1, 0, [], [], []⟩) := by
    unfold copy_object
    rw [hget]
  unfold _copy_object
  rw [if_neg (not_not_intro hv)]
  rw [if_neg (by simp [he])]
  cases check_dst with
  | false =>
    rw [if_neg Bool.false_ne_true]
    refine ⟨_, rfl, ?_⟩
    unfold tryCopy
    rw [hcopy]
    exact ⟨rfl, rfl, rfl, rfl, rfl, rfl⟩
  | true =>
    rw [if_pos rfl]
    have hon : obj_in_objstorage dstContains obj.sha1 =
        (TenacityResult.ok false, ⟨1, [("obj_in_objstorage", 1)], []⟩) :=
      retryLoop_success (fun k => classifyWrapAll (dstContains k))
        "obj_in_objstorage" obj.sha1 1 2 false
        (by simp [classifyWrapAll, hc rfl])
    rw [hon]
    refine ⟨_, rfl, ?_⟩
    unfold tryCopy
    rw [hcopy]
    exact ⟨rfl, rfl, rfl, rfl, rfl, rfl⟩

theorem not_found_get_skips_witness :
    ∃ r, _copy_object (fun _ => RawResult.notFound)
        (fun _ => RawResult.ok ()) (fun _ => RawResult.ok false) none true
        ⟨[4], "visible"⟩ = some r ∧
      r.srcAttempts = 1 ∧ r.decision = "not_in_src" ∧ r.nbSkipped = 1 ∧
      r.nbFailures = 0 ∧ r.dstAddAttempts = 0 ∧ r.reported = [] :=
  not_found_get_skips (fun _ => RawResult.notFound)
    (fun _ => RawResult.ok ()) (fun _ => RawResult.ok false) none true
    ⟨[4], "visible"⟩ (by decide) (by decide) (fun _ => rfl) rfl

/-- C7: with the presence check disabled (`check_dst = false`), a
visible, non-excluded record whose source `get` succeeds is fetched and
stored unconditionally — the destination contains-check is never invoked
(zero contains attempts, so presence in the destination is irrelevant
and `in_dst` can never be the decision), at least one destination `add`
attempt is made, and the outcome is `copied` with the fetched byte
count. -/
theorem check_dst_off_recopies (srcGet : Nat → RawResult (List Nat))
    (dstAdd : Nat → RawResult Unit) (dstContains : Nat → RawResult Bool)
    (exclude_fn : Option (Record → Bool)) (obj : Record) (o : List Nat)
    (hv : obj.status = "visible") (he : exclCheck exclude_fn obj = false)
    (hget : srcGet 1 = RawResult.ok o) :
    ∃ r, _copy_object srcGet dstAdd dstContains exclude_fn false obj
        = some r ∧
      r.decision = "copied" ∧ r.dstContainsAttempts = 0 ∧
      r.srcAttempts = 1 ∧ 1 ≤ r.dstAddAttempts ∧ r.vol = [o.length] := by
  have hg : get_object srcGet obj.sha1 =
      (TenacityResult.ok o, ⟨1, [("get_object", 1)], []⟩) :=
    retryLoop_success (fun k => classifyGet (srcGet k)) "get_object"
      obj.sha1 1 2 o (by simp [classifyGet, hget])
  rcases hp : put_object dstAdd obj.sha1 with ⟨pres, pt⟩
  have hpa : 1 ≤ pt.attempts := by
    have h1 := retryLoop_attempts_ge
      (fun k => classifyWrapAll (dstAdd k)) "put_object" obj.sha1 2 1
    have hp2 : (put_object dstAdd obj.sha1).2 = pt := by rw [hp]
    rw [← hp2]
    exact h1
  have hcopy : copy_object srcGet dstAdd obj.sha1 =
      (CopyResult.returned (some o.length),
        ⟨1, pt.attempts, [("get_object", 1)] ++ pt.retryMetric,
          [] ++ pt.reported, [o.length]⟩) := by
    unfold copy_object
    rw [hg, hp]
  unfold _copy_object
  rw [if_neg (not_not_intro hv)]
  rw [if_neg (by simp [he])]
  rw [if_neg Bool.false_ne_true]
  refine ⟨_, rfl, ?_⟩
  unfold tryCopy
  rw [hcopy]
  exact ⟨rfl, rfl, rfl, hpa, rfl⟩

theorem check_dst_off_recopies_witness :
    ∃ r, _copy_object (fun _ => RawResult.ok [5, 6, 7])
        (fun _ => RawResult.ok ()) (fun _ => RawResult.ok true) none false
        ⟨[4], "visible"⟩ = some r ∧
      r.decision = "copied" ∧ r.dstContainsAttempts = 0 ∧
      r.srcAttempts = 1 ∧ 1 ≤ r.dstAddAttempts ∧
      r.vol = [List.length [5, 6, 7]] :=
  check_dst_off_recopies (fun _ => RawResult.ok [5, 6, 7])
    (fun _ => RawResult.ok ()) (fun _ => RawResult.ok true) none
    ⟨[4], "visible"⟩ [5, 6, 7] (by decide) (by decide) rfl

/-- C1 (evaluation at the failing input): for a visible record whose
source `get` raises a transient error on all 3 attempts, exactly one
Error Reporter record is written and no exception escapes the pipeline
(the result is `some …`), but — contrary to the claim and to the dead
`copied is None` branch of `_copy_object` — the outcome is the decision
`copied` with 0 bytes, not `failed`: `get_object`'s retry callback
returns `None` and `copy_object` turns that `None` into `0`.  The second
conjunct checks the claim's other half: two transient failures followed
by a success yield `copied` with the fetched byte count. -/
theorem transient_exhaustion_eval :
    (_copy_object (fun _ => RawResult.err) (fun _ => RawResult.ok ())
        (fun _ => RawResult.ok false) none false ⟨[7], "visible"⟩ =
      some { decision := "copied", nbSkipped := 0, nbFailures := 0,
              vol := [0], srcAttempts := 3, dstAddAttempts := 0,
              dstContainsAttempts := 0, retryMetric := [],
              reported := [[7]] }) ∧
    (_copy_object (fun k => if k < 3 then RawResult.err
          else RawResult.ok [5, 6]) (fun _ => RawResult.ok ())
        (fun _ => RawResult.ok false) none false ⟨[7], "visible"⟩ =
      some { decision := "copied", nbSkipped := 0, nbFailures := 0,
              vol := [2], srcAttempts := 3, dstAddAttempts := 1,
              dstContainsAttempts := 0,
              retryMetric := [("get_object", 3), ("put_object", 1)],
              reported := [] }) :=
  ⟨rfl, rfl⟩

/-- C4 counterexample: a `get_object` call that succeeds on its very
first attempt increments the retry counter, tagged
`(get_object, attempt 1)` — `retry_log_if_success` fires on every
successful outcome, not only on successes preceded by a failure. -/
theorem retry_metric_first_attempt_cex :
    (get_object (fun _ => RawResult.ok [5]) [9]).2.retryMetric =
      [("get_object", 1)] := rfl

/-- C4 amended: for each retry-wrapped operation (`get_object`,
`put_object`, `obj_in_objstorage`), the retry counter tagged with the
operation name and the attempt number is incremented exactly once when
the call returns a value — on the succeeding attempt, whatever its
number, including first-attempt successes — and never when the call
ends in not-found or retry exhaustion; failed attempts never increment
it. -/
theorem retry_metric_on_success_only
    (srcGet : Nat → RawResult (List Nat)) (dstAdd : Nat → RawResult Unit)
    (dstContains : Nat → RawResult Bool) (obj_id : List Nat) :
    ((get_object srcGet obj_id).2.retryMetric =
      retryMetricOfOutcome "get_object" (get_object srcGet obj_id)) ∧
    ((put_object dstAdd obj_id).2.retryMetric =
      retryMetricOfOutcome "put_object" (put_object dstAdd obj_id)) ∧
    ((obj_in_objstorage dstContains obj_id).2.retryMetric =
      retryMetricOfOutcome "obj_in_objstorage"
        (obj_in_objstorage dstContains obj_id)) :=
  ⟨retryLoop_metric (fun k => classifyGet (srcGet k)) "get_object"
      obj_id 2 1,
    retryLoop_metric (fun k => classifyWrapAll (dstAdd k)) "put_object"
      obj_id 2 1,
    retryLoop_metric (fun k => classifyWrapAll (dstContains k))
      "obj_in_objstorage" obj_id 2 1⟩

/-- C9: `copy_object` never returns `None` — it returns the fetched byte
count on a successful get, `0` when `get_object` yields no object after
retry exhaustion, and only ever exits otherwise by re-raising
`ObjNotFoundError`; consequently the `copied is None` branch of
`_copy_object` is unreachable and `nb_failures` is 0 at the end of every
batch that completes. -/
theorem copy_object_never_none
    (sg : Nat → RawResult (List Nat)) (da : Nat → RawResult Unit)
    (obj_id : List Nat)
    (srcGet : Record → Nat → RawResult (List Nat))
    (dstAdd : Record → Nat → RawResult Unit)
    (dstContains : Record → Nat → RawResult Bool)
    (exclude_fn : Option (Record → Bool)) (check_dst : Bool)
    (all_objects : List (String × List Record)) :
    ((copy_object sg da obj_id).1 =
      match (get_object sg obj_id).1 with
      | .ok o => CopyResult.returned (some o.length)
      | .exhausted => CopyResult.returned (some 0)
      | .raisedNotFound => CopyResult.raisedNotFound) ∧
    (copy_object sg da obj_id).1 ≠ CopyResult.returned none ∧
    (process_replay_objects_content srcGet dstAdd dstContains exclude_fn
        check_dst all_objects).elim 0 (fun s => s.nbFailures) = 0 := by
  refine ⟨?_, copy_object_fst_ne_none sg da obj_id, ?_⟩
  · rcases hg : get_object sg obj_id with ⟨res, tg⟩
    cases res <;> simp [copy_object, hg]
  · rcases hps : process_replay_objects_content srcGet dstAdd dstContains
        exclude_fn check_dst all_objects with _ | s
    · rfl
    · have hz : s.nbFailures = 0 := by
        refine runBatch_nbFailures _ (fun r p hp => ?_) _ s hps
        exact _copy_object_nbFailures (srcGet r) (dstAdd r)
          (dstContains r) exclude_fn check_dst r p hp
      simp [hz]

end Replay
